import Mathlib

/-!
Shallow embedding of the OPN plugin's control core and proofs about it.

The definitions below are translated from the C++ sources:

* `src/src/audio/keyboard.{h,cpp}` — the FIFO voice allocator (`Keyboard`);
* `src/src/audio/fm_audio_source.cpp` — the parameter-to-register translator
  (`FmAudioSource`), its pending register-write list, and the per-channel /
  per-operator address tables;
* `src/src/audio/parameter/parameter_change_queue.{h,cpp}` — the
  unique-by-kind change queue;
* `src/src/ranged_value.h`, `src/src/audio/note.h`,
  `src/src/audio/register.h`, `src/src/audio/pitch_util.h` — value types.

Machine integers are modelled as `Nat` / `Int`; `std::size_t` arithmetic that
can wrap is made explicit with `% 2 ^ 64` at the one subtraction site where it
matters.  Out-of-bounds container accesses of the C++ (reading `front()` of an
empty `std::deque`, indexing a fixed array past its end, iterator ranges past
the end) are undefined behaviour in the source; the embedding models them as
`Except` errors so that each such site is visible and provable.
-/

namespace Audio

/-- Decidable equality for `Except`, so that concrete runs of the fallible
operations can be checked by `decide`. -/
instance {ε α : Type} [DecidableEq ε] [DecidableEq α] :
    DecidableEq (Except ε α) := fun x y =>
  match x, y with
  | .ok a, .ok b =>
    match decEq a b with
    | .isTrue h => .isTrue (h ▸ rfl)
    | .isFalse h => .isFalse fun hh => h (Except.ok.inj hh)
  | .error a, .error b =>
    match decEq a b with
    | .isTrue h => .isTrue (h ▸ rfl)
    | .isFalse h => .isFalse fun hh => h (Except.error.inj hh)
  | .ok _, .error _ => .isFalse fun hh => Except.noConfusion hh
  | .error _, .ok _ => .isFalse fun hh => Except.noConfusion hh

/-- Errors raised by the keyboard allocator or produced where the C++ has
undefined behaviour on containers. -/
inductive KbError where
  /-- Models `throw std::invalid_argument` (zero polyphony). -/
  | invalidArgument
  /-- Models `throw std::range_error("Polyphony state is broken.")`. -/
  | rangeError
  /-- Models undefined behaviour: `front()` / `pop_front()` on an empty
  `std::deque`, or an iterator range past the container's end. -/
  | undefinedBehaviour
deriving DecidableEq

/-- Note object, from `note.h`: channel, note number and velocity; velocity 0
means note-off. -/
structure Note where
  channel : Int
  noteNumber : Int
  velocity : Nat
deriving DecidableEq

/-- Generate a note-off, from `Note::noteOff`. -/
def Note.noteOff (channel noteNumber : Int) : Note :=
  ⟨channel, noteNumber, 0⟩

/-- Whether the note is a note-on, from `Note::isNoteOn`. -/
def Note.isNoteOn (n : Note) : Bool :=
  n.velocity ≠ 0

/-- Information of note assignment on polyphony management, from
`keyboard.h`. -/
structure NoteAssignment where
  assignId : Nat
  note : Note
deriving DecidableEq

/-- State of the voice allocator, from `keyboard.h`: the FIFO of sounding
assignments, the FIFO of assignable ids, and the configured polyphony. -/
structure Keyboard where
  noteOnQueue : List NoteAssignment
  assignableIdQueue : List Nat
  polyphony : Nat
deriving DecidableEq

namespace Keyboard

/-- Constructor `Keyboard::Keyboard(std::size_t polyphony)`: rejects zero
polyphony, otherwise fills the assignable-id queue with `0, …, polyphony-1`. -/
def create (polyphony : Nat) : Except KbError Keyboard :=
  if polyphony = 0 then .error .invalidArgument
  else .ok ⟨[], List.range polyphony, polyphony⟩

/-- Sorted-insert used to model `std::set<std::size_t>` (ordered, no
duplicates). -/
def insertSorted (x : Nat) : List Nat → List Nat
  | [] => [x]
  | y :: ys =>
    if x < y then x :: y :: ys
    else if x = y then y :: ys
    else y :: insertSorted x ys

/-- Build a `std::set<std::size_t>` from an insertion sequence. -/
def sortedIds (l : List Nat) : List Nat :=
  l.foldl (fun acc x => insertSorted x acc) []

/-- From `Keyboard::usedAssignIds`: the set of ids that are sounding or
assignable (insertion order: sounding ids first, then the assignable queue;
the result is the sorted deduplicated set either way). -/
def usedAssignIds (kb : Keyboard) : List Nat :=
  sortedIds (kb.noteOnQueue.map (·.assignId) ++ kb.assignableIdQueue)

/-- Modelled from the spec: `Keyboard::noteOns()` is called by
`fm_audio_source.cpp` but its definition is absent from the sources in `src/`
(the checked-in `keyboard.h` is an older revision without it).  The spec says
it "returns the ordered list of currently sounding voice assignments (FIFO
order)", i.e. the note-on queue itself. -/
def noteOns (kb : Keyboard) : List NoteAssignment :=
  kb.noteOnQueue

/-- Helper for `tryNoteOff`: find the first queue entry with the same channel
and note number, returning it together with the queue with that entry erased
(models `std::find_if` + `erase`). -/
def removeFirstMatch (ch n : Int) :
    List NoteAssignment → Option (NoteAssignment × List NoteAssignment)
  | [] => none
  | a :: rest =>
    if a.note.channel = ch ∧ a.note.noteNumber = n then some (a, rest)
    else (removeFirstMatch ch n rest).map (fun p => (p.1, a :: p.2))

/-- From `Keyboard::tryNoteOff`: a note with nonzero velocity is rejected
outright (the `if (note.isNoteOn()) return {};` guard); otherwise the first
sounding entry with the same channel and note number is moved to the
assignable queue and returned as a note-off assignment. -/
def tryNoteOff (kb : Keyboard) (note : Note) :
    Option NoteAssignment × Keyboard :=
  if note.isNoteOn then (none, kb)
  else
    match removeFirstMatch note.channel note.noteNumber kb.noteOnQueue with
    | none => (none, kb)
    | some (a, rest) =>
      (some ⟨a.assignId, Note.noteOff a.note.channel a.note.noteNumber⟩,
        { kb with
          noteOnQueue := rest
          assignableIdQueue := kb.assignableIdQueue ++ [a.assignId] })

/-- Tail of `Keyboard::tryNoteOn`: assign the front assignable id to the new
note (`front()` on an empty assignable queue would be undefined behaviour). -/
def assignNewNote (changes : List NoteAssignment) (kb : Keyboard)
    (note : Note) : Except KbError (List NoteAssignment × Keyboard) :=
  match kb.assignableIdQueue with
  | [] => .error .undefinedBehaviour
  | id :: restIds =>
    let newAssignment : NoteAssignment := ⟨id, note⟩
    .ok (changes ++ [newAssignment],
      { kb with
        assignableIdQueue := restIds
        noteOnQueue := kb.noteOnQueue ++ [newAssignment] })

/-- From `Keyboard::tryNoteOn`: zero-velocity input returns no changes;
otherwise `tryNoteOff` is invoked with the incoming (note-on) note, then the
oldest sounding voice is stolen if no id is assignable, then the new note is
assigned to the front assignable id. -/
def tryNoteOn (kb : Keyboard) (note : Note) :
    Except KbError (List NoteAssignment × Keyboard) :=
  if !note.isNoteOn then .ok ([], kb)
  else
    let offAndKb := tryNoteOff kb note
    let changes := match offAndKb.1 with
      | some a => [a]
      | none => []
    let kb1 := offAndKb.2
    if kb1.assignableIdQueue.isEmpty then
      match kb1.noteOnQueue with
      | [] => .error .undefinedBehaviour
      | oldest :: restQueue =>
        let off : NoteAssignment :=
          ⟨oldest.assignId,
            Note.noteOff oldest.note.channel oldest.note.noteNumber⟩
        assignNewNote (changes ++ [off])
          { kb1 with
            noteOnQueue := restQueue
            assignableIdQueue := kb1.assignableIdQueue ++ [oldest.assignId] }
          note
    else
      assignNewNote changes kb1 note

/-- From `Keyboard::forceAllNoteOff`: every sounding assignment is returned as
a note-off and the note-on queue is cleared.  Note that the source does not
push the freed ids back onto the assignable queue. -/
def forceAllNoteOff (kb : Keyboard) : List NoteAssignment × Keyboard :=
  (kb.noteOnQueue.map
      (fun a => ⟨a.assignId, Note.noteOff a.note.channel a.note.noteNumber⟩),
    { kb with noteOnQueue := [] })

/-- Wrapping `std::size_t` subtraction (64-bit): `a - b` computed modulo
`2 ^ 64`. -/
def sub64 (a b : Nat) : Nat :=
  (a + (2 ^ 64 - b % 2 ^ 64)) % 2 ^ 64

/-- From `Keyboard::setPolyphony`.  The source computes the shrink amount as
`newPolyphony - oldPolyphony` on `std::size_t` (which wraps when shrinking,
modelled by `sub64`), exchanges `polyphony_` first, reclaims assignable ids,
then evicts the oldest sounding voices; growing collects the unused ids below
the new polyphony in ascending order and prepends them to the assignable
queue. -/
def setPolyphony (kb : Keyboard) (newPolyphony : Nat) :
    Except KbError (List NoteAssignment × Keyboard) :=
  if newPolyphony = 0 then .error .invalidArgument
  else
    let oldPolyphony := kb.polyphony
    let kb := { kb with polyphony := newPolyphony }
    if newPolyphony < oldPolyphony then
      let decreasedSize := sub64 newPolyphony oldPolyphony
      if kb.noteOnQueue.length + kb.assignableIdQueue.length < decreasedSize
      then .error .rangeError
      else
        let nDeletable := min decreasedSize kb.assignableIdQueue.length
        let kb :=
          { kb with assignableIdQueue := kb.assignableIdQueue.drop nDeletable }
        let decreasedSize := decreasedSize - nDeletable
        if decreasedSize = 0 then .ok ([], kb)
        else if kb.noteOnQueue.length < decreasedSize then
          .error .undefinedBehaviour
        else
          let noteOffQueue :=
            (kb.noteOnQueue.take decreasedSize).map
              (fun a =>
                ⟨a.assignId,
                  Note.noteOff a.note.channel a.note.noteNumber⟩)
          .ok (noteOffQueue,
            { kb with noteOnQueue := kb.noteOnQueue.drop decreasedSize })
    else if oldPolyphony < newPolyphony then
      let usedIds :=
        sortedIds (kb.assignableIdQueue ++ kb.noteOnQueue.map (·.assignId))
      if usedIds.length ≠ oldPolyphony then .error .rangeError
      else
        let difference :=
          (List.range newPolyphony).filter (fun i => i ∉ usedIds)
        let increasedSize := newPolyphony - oldPolyphony
        if difference.length < increasedSize then .error .rangeError
        else
          .ok ([],
            { kb with
              assignableIdQueue :=
                difference.take increasedSize ++ kb.assignableIdQueue })
    else .ok ([], kb)

end Keyboard

/-! ## Register writes and address tables (`register.h`, `fm_audio_source.cpp`) -/

/-- Value pair of address and data of register, from `register.h`: pin-A1
flag, 8-bit address, 8-bit data. -/
structure Register where
  pinA1 : Bool
  address : Nat
  data : Nat
deriving DecidableEq

/-- The `Register(std::uint16_t address, std::uint8_t data)` constructor:
bit 8 of the 16-bit address becomes the pin-A1 flag, the low byte the
address; data narrows to 8 bits. -/
def Register.of16 (address : Nat) (data : Nat) : Register :=
  ⟨address &&& 0x100 ≠ 0, address % 256, data % 256⟩

/-- Maximum number of channels (`kMaxChannelCount`). -/
def kMaxChannelCount : Nat := 6

/-- Per-channel address offsets used by `addressOfChannel`. -/
def kChannelOffsetTable : List Nat := [0x0, 0x1, 0x2, 0x100, 0x101, 0x102]

/-- From `addressOfChannel`: base address plus the per-channel offset, or the
base address unchanged for an invalid channel (the guard is inside the
function in the source). -/
def addressOfChannel (channel baseAddress : Nat) : Nat :=
  if channel < kMaxChannelCount then
    baseAddress + kChannelOffsetTable.getD channel 0
  else baseAddress

/-- Per-operator address offsets used by `addressOfOperator`
(`{0, 8, 4, 12}`). -/
def kOperatorOffsetTable : List Nat := [0, 8, 4, 12]

/-- From `addressOfOperator`: base address plus the per-slot offset. -/
def addressOfOperator (slot baseAddress : Nat) : Nat :=
  if slot < kOperatorOffsetTable.length then
    baseAddress + kOperatorOffsetTable.getD slot 0
  else baseAddress

/-- Look-up table controlling the low bits of register `$28`
(`kNoteOnChannelTable`); six entries, indexed by channel number. -/
def kNoteOnChannelTable : List Nat := [0b000, 0b001, 0b010, 0b100, 0b101, 0b110]

/-- F-Num1 register address per channel (`kFNum1AddressTable` in
`reservePitchChange`); six entries. -/
def kFNum1AddressTable : List Nat := [0xa0, 0xa1, 0xa2, 0x1a0, 0x1a1, 0x1a2]

/-- From `convertDetuneAsRegisterValue`: sign bit (4) for negative detune,
or-ed with the magnitude. -/
def convertDetuneAsRegisterValue (value : Int) : Nat :=
  (if value < 0 then 4 else 0) ||| value.natAbs

/-! ## Parameter state (`parameter/parameter.h`, `ranged_value.h`)

Each `RangedValue` field is stored as its raw numeric value; the hardware
ranges (for example feedback 0–7, attack rate 0–31) appear as hypotheses of
the theorems, mirroring that every constructed `RangedValue` is clamped into
its range. -/

/-- Per-operator slot parameters, from `FmParameters::Operator`. -/
structure OpParams where
  isEnabled : Bool
  ar : Nat
  dr : Nat
  sr : Nat
  rr : Nat
  sl : Nat
  tl : Nat
  ks : Nat
  ml : Nat
  dt : Int
  ssgegShape : Nat
  ssgegEnabled : Bool
  am : Bool
deriving DecidableEq

/-- Default `FmParameters::Operator` values. -/
def OpParams.default : OpParams :=
  ⟨true, 31, 0, 0, 7, 0, 0, 0, 0, 0, 8, false, false⟩

/-- Attack rate hardware maximum (`parameter::AttackRateValue::kMaximum`). -/
def kAttackRateMaximum : Nat := 31

/-- The four operator slots (`Operator slot[kSlotCount]`). -/
structure Slots where
  op0 : OpParams
  op1 : OpParams
  op2 : OpParams
  op3 : OpParams
deriving DecidableEq

/-- Read `slot[i]`. -/
def Slots.get (s : Slots) : Fin 4 → OpParams
  | 0 => s.op0
  | 1 => s.op1
  | 2 => s.op2
  | 3 => s.op3

/-- Write `slot[i]`. -/
def Slots.set (s : Slots) : Fin 4 → OpParams → Slots
  | 0, o => { s with op0 := o }
  | 1, o => { s with op1 := o }
  | 2, o => { s with op2 := o }
  | 3, o => { s with op3 := o }

/-- Tone parameter state, from `FmParameters` (algorithm, feedback, the four
operator slots, and the LFO block). -/
structure ToneParams where
  al : Nat
  fb : Nat
  slot : Slots
  lfoFrequency : Nat
  lfoPms : Nat
  lfoAms : Nat
  lfoEnabled : Bool
deriving DecidableEq

/-- Default `FmParameters` values (`al{7}`, `fb{0}`, default operators,
LFO all zero). -/
def ToneParams.default : ToneParams :=
  ⟨7, 0, ⟨.default, .default, .default, .default⟩, 0, 0, 0, false⟩

/-! ## The translator state (`fm_audio_source.cpp`) -/

/-- State of `FmAudioSource` relevant to register reservation: the keyboard,
the tone parameter state, global pitch-bend data, the note-on mask and the
pending register-write list (`reservedChanges_`). -/
structure Fm where
  keyboard : Keyboard
  tone : ToneParams
  pitchBendSensitivity : Int
  pitchBend : Int
  noteOnMask : Nat
  reservedChanges : List Register
deriving DecidableEq

/-- The per-channel broadcast loop shared by the
`tryReserveParameterChange` overloads: iterate `keyboard_.usedAssignIds()`,
skip channels at or beyond `kMaxChannelCount`, and emit
`Register(addressOfChannel(channel, base), data)` for the rest. -/
def channelWrites (kb : Keyboard) (base data : Nat) : List Register :=
  kb.usedAssignIds.filterMap fun channel =>
    if kMaxChannelCount ≤ channel then none
    else some (Register.of16 (addressOfChannel channel base) data)

namespace Fm

/-- From `tryReserveParameterChange(const parameter::FeedbackValue&)`. -/
def tryReserveFeedback (s : Fm) (v : Nat) : Bool × Fm :=
  let old := s.tone.fb
  let s := { s with tone.fb := v }
  if old = v then (false, s)
  else
    (true,
      { s with
        reservedChanges :=
          s.reservedChanges ++
            channelWrites s.keyboard 0xb0 ((v <<< 3) ||| s.tone.al) })

/-- From `tryReserveParameterChange(const parameter::AlgorithmValue&)`. -/
def tryReserveAlgorithm (s : Fm) (v : Nat) : Bool × Fm :=
  let old := s.tone.al
  let s := { s with tone.al := v }
  if old = v then (false, s)
  else
    (true,
      { s with
        reservedChanges :=
          s.reservedChanges ++
            channelWrites s.keyboard 0xb0 ((s.tone.fb <<< 3) ||| v) })

/-- The note-on trigger rewrite loop of
`tryReserveParameterChange(SlotAndValue<OperatorEnabledValue>)`: one `$28`
write per sounding voice, skipping channels at or beyond
`kMaxChannelCount`. -/
def noteOnWrites (kb : Keyboard) (mask : Nat) : List Register :=
  kb.noteOns.filterMap fun a =>
    if kMaxChannelCount ≤ a.assignId then none
    else some (Register.of16 0x28 (kNoteOnChannelTable.getD a.assignId 0 ||| mask))

/-- From `tryReserveParameterChange(SlotAndValue<OperatorEnabledValue>)`:
updates the slot flag, or-s / and-nots the note-on mask bit, and rewrites the
trigger register for every sounding voice. -/
def tryReserveOperatorEnabled (s : Fm) (i : Fin 4) (v : Bool) : Bool × Fm :=
  let old := (s.tone.slot.get i).isEnabled
  let s := { s with tone.slot := s.tone.slot.set i { s.tone.slot.get i with isEnabled := v } }
  if old = v then (false, s)
  else
    let mask := 1 <<< (i.val + 4)
    let newMask := if v then s.noteOnMask ||| mask
      else s.noteOnMask &&& (255 ^^^ mask)
    let s := { s with noteOnMask := newMask }
    (true,
      { s with
        reservedChanges := s.reservedChanges ++ noteOnWrites s.keyboard newMask })

/-- From `tryReserveParameterChange(SlotAndValue<AttackRateValue>)`: stores
the requested value; if SSG-EG is enabled for the slot the register is left
untouched (the source comment reads "No need to change register."),
otherwise the shared key-scale / attack-rate register is broadcast. -/
def tryReserveAttackRate (s : Fm) (i : Fin 4) (v : Nat) : Bool × Fm :=
  let old := (s.tone.slot.get i).ar
  let s := { s with tone.slot := s.tone.slot.set i { s.tone.slot.get i with ar := v } }
  if old = v then (false, s)
  else if (s.tone.slot.get i).ssgegEnabled then (true, s)
  else
    let address := addressOfOperator i.val 0x50
    let registerValue := ((s.tone.slot.get i).ks <<< 6) ||| v
    (true,
      { s with
        reservedChanges :=
          s.reservedChanges ++ channelWrites s.keyboard address registerValue })

/-- From `tryReserveParameterChange(SlotAndValue<DecayRateValue>)`. -/
def tryReserveDecayRate (s : Fm) (i : Fin 4) (v : Nat) : Bool × Fm :=
  let old := (s.tone.slot.get i).dr
  let s := { s with tone.slot := s.tone.slot.set i { s.tone.slot.get i with dr := v } }
  if old = v then (false, s)
  else
    let address := addressOfOperator i.val 0x60
    (true,
      { s with
        reservedChanges :=
          s.reservedChanges ++ channelWrites s.keyboard address v })

/-- From `tryReserveParameterChange(SlotAndValue<SustainRateValue>)`. -/
def tryReserveSustainRate (s : Fm) (i : Fin 4) (v : Nat) : Bool × Fm :=
  let old := (s.tone.slot.get i).sr
  let s := { s with tone.slot := s.tone.slot.set i { s.tone.slot.get i with sr := v } }
  if old = v then (false, s)
  else
    let address := addressOfOperator i.val 0x70
    (true,
      { s with
        reservedChanges :=
          s.reservedChanges ++ channelWrites s.keyboard address v })

/-- From `tryReserveParameterChange(SlotAndValue<ReleaseRateValue>)`: the
shared sustain-level / release-rate register is repacked from the stored
sustain level and the new release rate. -/
def tryReserveReleaseRate (s : Fm) (i : Fin 4) (v : Nat) : Bool × Fm :=
  let old := (s.tone.slot.get i).rr
  let s := { s with tone.slot := s.tone.slot.set i { s.tone.slot.get i with rr := v } }
  if old = v then (false, s)
  else
    let address := addressOfOperator i.val 0x80
    let registerValue := ((s.tone.slot.get i).sl <<< 4) ||| v
    (true,
      { s with
        reservedChanges :=
          s.reservedChanges ++ channelWrites s.keyboard address registerValue })

/-- From `tryReserveParameterChange(SlotAndValue<SustainLevelValue>)`. -/
def tryReserveSustainLevel (s : Fm) (i : Fin 4) (v : Nat) : Bool × Fm :=
  let old := (s.tone.slot.get i).sl
  let s := { s with tone.slot := s.tone.slot.set i { s.tone.slot.get i with sl := v } }
  if old = v then (false, s)
  else
    let address := addressOfOperator i.val 0x80
    let registerValue := (v <<< 4) ||| (s.tone.slot.get i).rr
    (true,
      { s with
        reservedChanges :=
          s.reservedChanges ++ channelWrites s.keyboard address registerValue })

/-- From `tryReserveParameterChange(SlotAndValue<TotalLevelValue>)`. -/
def tryReserveTotalLevel (s : Fm) (i : Fin 4) (v : Nat) : Bool × Fm :=
  let old := (s.tone.slot.get i).tl
  let s := { s with tone.slot := s.tone.slot.set i { s.tone.slot.get i with tl := v } }
  if old = v then (false, s)
  else
    let address := addressOfOperator i.val 0x40
    (true,
      { s with
        reservedChanges :=
          s.reservedChanges ++ channelWrites s.keyboard address v })

/-- From `tryReserveParameterChange(SlotAndValue<KeyScaleValue>)`: repacks the
shared key-scale / attack-rate register; the attack-rate bits are forced to
`AttackRateValue::kMaximum` while SSG-EG is enabled for the slot, and use the
stored attack rate otherwise. -/
def tryReserveKeyScale (s : Fm) (i : Fin 4) (v : Nat) : Bool × Fm :=
  let old := (s.tone.slot.get i).ks
  let s := { s with tone.slot := s.tone.slot.set i { s.tone.slot.get i with ks := v } }
  if old = v then (false, s)
  else
    let address := addressOfOperator i.val 0x50
    let rawAr := if (s.tone.slot.get i).ssgegEnabled then kAttackRateMaximum
      else (s.tone.slot.get i).ar
    let registerValue := (v <<< 6) ||| rawAr
    (true,
      { s with
        reservedChanges :=
          s.reservedChanges ++ channelWrites s.keyboard address registerValue })

/-- From `tryReserveParameterChange(SlotAndValue<MultipleValue>)`: repacks the
shared detune / multiple register from the stored detune and the new
multiple. -/
def tryReserveMultiple (s : Fm) (i : Fin 4) (v : Nat) : Bool × Fm :=
  let old := (s.tone.slot.get i).ml
  let s := { s with tone.slot := s.tone.slot.set i { s.tone.slot.get i with ml := v } }
  if old = v then (false, s)
  else
    let address := addressOfOperator i.val 0x30
    let rawDt := convertDetuneAsRegisterValue (s.tone.slot.get i).dt
    let registerValue := (rawDt <<< 4) ||| v
    (true,
      { s with
        reservedChanges :=
          s.reservedChanges ++ channelWrites s.keyboard address registerValue })

/-- From `tryReserveParameterChange(SlotAndValue<DetuneValue>)`. -/
def tryReserveDetune (s : Fm) (i : Fin 4) (v : Int) : Bool × Fm :=
  let old := (s.tone.slot.get i).dt
  let s := { s with tone.slot := s.tone.slot.set i { s.tone.slot.get i with dt := v } }
  if old = v then (false, s)
  else
    let address := addressOfOperator i.val 0x30
    let rawDt := convertDetuneAsRegisterValue v
    let registerValue := (rawDt <<< 4) ||| (s.tone.slot.get i).ml
    (true,
      { s with
        reservedChanges :=
          s.reservedChanges ++ channelWrites s.keyboard address registerValue })

/-- From `pitch_util::calculateCent`: integer arithmetic with C++ truncating
division (`Int.tdiv`). -/
def calculateCent (noteNumber pitchBend pitchBendSensitivity : Int) : Int :=
  noteNumber * 100 +
    Int.tdiv (100 * pitchBendSensitivity * pitchBend)
      (if pitchBend < 0 then 8192 else 8191)

/-- The cent → (Block, F-Number) conversion
(`calculateFNumberAndBlockFromCent`) goes through `double` arithmetic
(`std::pow`, `std::round`); floating point is outside the embedding, so the
conversion is abstracted as an arbitrary function onto 16-bit results.  Every
theorem below holds for every such function. -/
structure PitchConv where
  fnumOfCent : Int → Nat

/-- From `FmAudioSource::reservePitchChange(const NoteAssignment&)`: ids
strictly above `kMaxChannelCount` are rejected (note the source guard is
`kMaxChannelCount < assignId`, not `<=`); otherwise the Block/F-Num2 byte and
the F-Num1 byte are reserved at the per-channel F-Num1 address.  Indexing
`kFNum1AddressTable` past its six entries is undefined behaviour. -/
def reservePitchChangeFor (conv : PitchConv) (s : Fm) (a : NoteAssignment) :
    Except KbError (Bool × Fm) :=
  if kMaxChannelCount < a.assignId then .ok (false, s)
  else
    let pbs := s.pitchBendSensitivity
    let cent := calculateCent a.note.noteNumber s.pitchBend pbs
    let blockAndFNum := conv.fnumOfCent cent % 65536
    match kFNum1AddressTable[a.assignId]? with
    | none => .error .undefinedBehaviour
    | some fNum1Address =>
      .ok (true,
        { s with
          reservedChanges :=
            s.reservedChanges ++
              [Register.of16 (fNum1Address + 4) (blockAndFNum >>> 8),
                Register.of16 fNum1Address (blockAndFNum &&& 0xff)] })

/-- The loop body of `FmAudioSource::reservePitchChange()`:
`isSuccess &= reservePitchChange(assignment)` over a list of assignments. -/
def reservePitchList (conv : PitchConv) :
    List NoteAssignment → Bool → Fm → Except KbError (Bool × Fm)
  | [], isSuccess, s => .ok (isSuccess, s)
  | a :: rest, isSuccess, s =>
    match reservePitchChangeFor conv s a with
    | .error e => .error e
    | .ok (b, s) => reservePitchList conv rest (isSuccess && b) s

/-- From `FmAudioSource::reservePitchChange()`: re-emit the pitch register
pair for every sounding voice. -/
def reservePitchChangeAll (conv : PitchConv) (s : Fm) :
    Except KbError (Bool × Fm) :=
  reservePitchList conv s.keyboard.noteOns true s

/-- From
`tryReserveParameterChange(const parameter::PitchBendSensitivityValue&)`:
exchange the stored sensitivity; on change, rebroadcast the pitch registers
of every sounding voice. -/
def tryReservePitchBendSensitivity (conv : PitchConv) (s : Fm) (v : Int) :
    Except KbError (Bool × Fm) :=
  let old := s.pitchBendSensitivity
  let s := { s with pitchBendSensitivity := v }
  if old = v then .ok (false, s)
  else reservePitchChangeAll conv s

/-- From `FmAudioSource::reserveNoteOn`: ids strictly above
`kMaxChannelCount` are rejected (source guard `kMaxChannelCount <
assignment.assignId`); otherwise `kNoteOnChannelTable[assignId]` is or-ed
with the note-on mask and written to `$28`.  Indexing the six-entry table at
`assignId == 6` is undefined behaviour. -/
def reserveNoteOn (s : Fm) (a : NoteAssignment) : Except KbError (Bool × Fm) :=
  if kMaxChannelCount < a.assignId then .ok (false, s)
  else
    match kNoteOnChannelTable[a.assignId]? with
    | none => .error .undefinedBehaviour
    | some bits =>
      .ok (true,
        { s with
          reservedChanges :=
            s.reservedChanges ++ [Register.of16 0x28 (bits ||| s.noteOnMask)] })

/-- From `FmAudioSource::reserveNoteOff`: same off-by-one guard as
`reserveNoteOn`; writes the channel bits without the mask. -/
def reserveNoteOff (s : Fm) (a : NoteAssignment) : Except KbError (Bool × Fm) :=
  if kMaxChannelCount < a.assignId then .ok (false, s)
  else
    match kNoteOnChannelTable[a.assignId]? with
    | none => .error .undefinedBehaviour
    | some bits =>
      .ok (true,
        { s with
          reservedChanges :=
            s.reservedChanges ++ [Register.of16 0x28 bits] })

/-- From `FmAudioSource::triggerReservedChanges`: every pending register
write is delivered to the sink, in insertion order.  The source iterates
`reservedChanges_` and never clears it, so the state is returned unchanged;
the first component is the ordered list of writes delivered during the
call. -/
def triggerReservedChanges (s : Fm) : List Register × Fm :=
  (s.reservedChanges, s)

end Fm

/-! ## The tagged parameter union (`parameter::ParameterVariant`) and the
dispatcher over `tryReserveParameterChange` overloads. -/

/-- One value of `parameter::ParameterVariant`: a parameter kind together
with its raw value (slot index included for per-operator parameters).  The
slot index is `Fin 4` because `SlotAndValue::slot` is a
`RangedValue<std::size_t, 0, 3>`, clamped at construction. -/
inductive ParameterChange where
  | pitchBendSensitivity (v : Int)
  | algorithm (v : Nat)
  | feedback (v : Nat)
  | operatorEnabled (slot : Fin 4) (v : Bool)
  | attackRate (slot : Fin 4) (v : Nat)
  | decayRate (slot : Fin 4) (v : Nat)
  | sustainRate (slot : Fin 4) (v : Nat)
  | releaseRate (slot : Fin 4) (v : Nat)
  | sustainLevel (slot : Fin 4) (v : Nat)
  | totalLevel (slot : Fin 4) (v : Nat)
  | keyScale (slot : Fin 4) (v : Nat)
  | multiple (slot : Fin 4) (v : Nat)
  | detune (slot : Fin 4) (v : Int)
deriving DecidableEq

namespace ParameterChange

/-- Whether the carried raw value lies in the hardware range of its
`RangedValue` type (`parameter.h`). -/
def inRange : ParameterChange → Bool
  | .pitchBendSensitivity v => 1 ≤ v ∧ v ≤ 24
  | .algorithm v => v ≤ 7
  | .feedback v => v ≤ 7
  | .operatorEnabled _ _ => true
  | .attackRate _ v => v ≤ 31
  | .decayRate _ v => v ≤ 31
  | .sustainRate _ v => v ≤ 31
  | .releaseRate _ v => v ≤ 15
  | .sustainLevel _ v => v ≤ 15
  | .totalLevel _ v => v ≤ 127
  | .keyScale _ v => v ≤ 3
  | .multiple _ v => v ≤ 15
  | .detune _ v => -3 ≤ v ∧ v ≤ 3

/-- Whether the carried value differs from the value currently stored in the
parameter state (the `std::exchange(...) == value` diff test of each
overload). -/
def differsFrom (s : Fm) : ParameterChange → Bool
  | .pitchBendSensitivity v => v ≠ s.pitchBendSensitivity
  | .algorithm v => v ≠ s.tone.al
  | .feedback v => v ≠ s.tone.fb
  | .operatorEnabled i v => v ≠ (s.tone.slot.get i).isEnabled
  | .attackRate i v => v ≠ (s.tone.slot.get i).ar
  | .decayRate i v => v ≠ (s.tone.slot.get i).dr
  | .sustainRate i v => v ≠ (s.tone.slot.get i).sr
  | .releaseRate i v => v ≠ (s.tone.slot.get i).rr
  | .sustainLevel i v => v ≠ (s.tone.slot.get i).sl
  | .totalLevel i v => v ≠ (s.tone.slot.get i).tl
  | .keyScale i v => v ≠ (s.tone.slot.get i).ks
  | .multiple i v => v ≠ (s.tone.slot.get i).ml
  | .detune i v => v ≠ (s.tone.slot.get i).dt

end ParameterChange

/-- The `std::visit` dispatch of a `ParameterVariant` onto the
`tryReserveParameterChange` overloads (as done in
`PluginProcessor::fillBuffer`).  Only the pitch-bend-sensitivity overload can
reach undefined behaviour (through `reservePitchChange`), so the result is
wrapped in `Except` uniformly. -/
def Fm.tryReserveParameterChange (conv : Fm.PitchConv) (s : Fm) :
    ParameterChange → Except KbError (Bool × Fm)
  | .pitchBendSensitivity v => s.tryReservePitchBendSensitivity conv v
  | .algorithm v => .ok (s.tryReserveAlgorithm v)
  | .feedback v => .ok (s.tryReserveFeedback v)
  | .operatorEnabled i v => .ok (s.tryReserveOperatorEnabled i v)
  | .attackRate i v => .ok (s.tryReserveAttackRate i v)
  | .decayRate i v => .ok (s.tryReserveDecayRate i v)
  | .sustainRate i v => .ok (s.tryReserveSustainRate i v)
  | .releaseRate i v => .ok (s.tryReserveReleaseRate i v)
  | .sustainLevel i v => .ok (s.tryReserveSustainLevel i v)
  | .totalLevel i v => .ok (s.tryReserveTotalLevel i v)
  | .keyScale i v => .ok (s.tryReserveKeyScale i v)
  | .multiple i v => .ok (s.tryReserveMultiple i v)
  | .detune i v => .ok (s.tryReserveDetune i v)

/-! ## The change queue (`parameter/parameter_change_queue.{h,cpp}`)

The C++ queue stores `ParameterVariant` values in a `std::list` (front-in,
back-out) plus an `unordered_map` from the variant's type index to the list
iterator of the pending element of that kind.  The map is an index mirror of
the list: under the queue's unique-kind discipline, erasing through the
map's iterator erases exactly the (unique) list element of that kind, which
is how it is modelled here; the variant is modelled by its type index paired
with `ParameterChange` as payload. -/

namespace ParameterChangeQueue

/-- Variant index of a `ParameterChange` (`ParameterVariant::index()`),
following the declaration order in `parameter.h`. -/
def kindIndex : ParameterChange → Nat
  | .pitchBendSensitivity _ => 0
  | .algorithm _ => 1
  | .feedback _ => 2
  | .operatorEnabled _ _ => 3
  | .attackRate _ _ => 4
  | .decayRate _ _ => 5
  | .sustainRate _ _ => 6
  | .releaseRate _ _ => 7
  | .sustainLevel _ _ => 8
  | .totalLevel _ _ => 9
  | .keyScale _ _ => 10
  | .multiple _ _ => 11
  | .detune _ _ => 12

/-- The queue state: the `std::list`, front first. -/
def State := List ParameterChange

/-- From `ParameterChangeQueue::enqueue`: erase the pending element of the
same type index (located through the map), then emplace the new value at the
front. -/
def enqueue (st : State) (p : ParameterChange) : State :=
  p :: List.eraseP (fun q => kindIndex q == kindIndex p) st

/-- From `ParameterChangeQueue::dequeue`: remove and return the back
element; on an empty queue the source throws `std::range_error`. -/
def dequeue (st : State) : Except KbError (ParameterChange × State) :=
  match st.getLast? with
  | none => .error .rangeError
  | some p => .ok (p, st.dropLast)

/-- From `ParameterChangeQueue::clear`. -/
def clear (_ : State) : State := []

/-- One queue operation. -/
inductive Op where
  | enq (p : ParameterChange)
  | deq
  | clr


/-- Apply one operation to the queue state (a failing `dequeue` throws in
the source; the state it leaves behind is unchanged). -/
def step (st : State) : Op → State
  | .enq p => enqueue st p
  | .deq =>
    match dequeue st with
    | .ok (_, st) => st
    | .error _ => st
  | .clr => clear st

/-- Run a sequence of operations from the empty queue (the initial state of
the `std::list`). -/
def run (ops : List Op) : State :=
  ops.foldl step []

/-- Fully drain the queue by repeated `dequeue`, as
`PluginProcessor::fillBuffer` does (`while (!parameterChangeQueue_.empty())
... dequeue()`); the fuel argument makes the recursion structural. -/
def drainFuel : Nat → State → List ParameterChange
  | 0, _ => []
  | fuel + 1, st =>
    match dequeue st with
    | .error _ => []
    | .ok (p, st) => p :: drainFuel fuel st

/-- Fully drain the queue by repeated `dequeue`. -/
def drain (st : State) : List ParameterChange :=
  drainFuel st.length st

end ParameterChangeQueue

/-! ## Concrete fixtures used by witnesses and counterexamples -/

/-- Sequencing of several `tryNoteOn` calls, keeping only the state (the
per-call change lists are examined separately where a claim needs them). -/
def noteOnSeq (kb : Keyboard) : List Note → Except KbError Keyboard
  | [] => .ok kb
  | n :: rest =>
    match Keyboard.tryNoteOn kb n with
    | .error e => .error e
    | .ok (_, kb) => noteOnSeq kb rest

/-- The keyboard state right after `Keyboard(kDefaultPolyphony)` (polyphony
six, all ids assignable). -/
def defaultKeyboard : Keyboard := ⟨[], List.range 6, 6⟩

/-- A concrete translator state: freshly constructed keyboard, default
parameter values, minimum pitch-bend sensitivity, no bend, all-operators
note-on mask, no pending writes. -/
def fmFixture : Fm :=
  ⟨defaultKeyboard, ToneParams.default, 1, 0, 0xf0, []⟩

/-- A concrete cent → Block/F-Number conversion (the theorems quantifying
over `Fm.PitchConv` hold for every conversion; witnesses use this one). -/
def trivialPitchConv : Fm.PitchConv := ⟨fun _ => 0⟩

/-! ## C1 -/

/-- C1: the claim states that after every operation — including
`forceAllNoteOff` — the sounding ids and the assignable ids partition
`[0, polyphony)`.  The code refutes it: `Keyboard::forceAllNoteOff` clears
the note-on queue without pushing the freed ids onto the assignable queue,
so with polyphony 1, after one note-on and one `forceAllNoteOff`, both
queues are empty and id 0 has vanished (`|sounding| + |free| = 0 ≠ 1`).
The keyboard's own consistency checks flag such a state as broken
(`setPolyphony` then throws `std::range_error("Polyphony state is
broken.")`), so this is a defect of the code, not of the claim. -/
theorem c1_forceAllNoteOff_drops_ids :
    Keyboard.create 1 = Except.ok ⟨[], [0], 1⟩ ∧
    Keyboard.tryNoteOn ⟨[], [0], 1⟩ ⟨1, 60, 100⟩ =
      Except.ok ([⟨0, ⟨1, 60, 100⟩⟩], ⟨[⟨0, ⟨1, 60, 100⟩⟩], [], 1⟩) ∧
    Keyboard.forceAllNoteOff ⟨[⟨0, ⟨1, 60, 100⟩⟩], [], 1⟩ =
      ([⟨0, ⟨1, 60, 0⟩⟩], ⟨[], [], 1⟩) ∧
    (Keyboard.forceAllNoteOff ⟨[⟨0, ⟨1, 60, 100⟩⟩], [], 1⟩).2.noteOnQueue.length +
      (Keyboard.forceAllNoteOff ⟨[⟨0, ⟨1, 60, 100⟩⟩], [], 1⟩).2.assignableIdQueue.length = 0 ∧
    Keyboard.setPolyphony (Keyboard.forceAllNoteOff ⟨[⟨0, ⟨1, 60, 100⟩⟩], [], 1⟩).2 2 =
      Except.error KbError.rangeError := by
  decide

/-! ## C2 -/

/-- C2: the claim states that after `triggerReservedChanges()` the pending
register-write list is empty.  The code refutes the "cleared" half: the
function iterates `reservedChanges_` and never clears it, so after the call
the pending list still holds the write, and a second call delivers the same
write again.  The "delivered exactly the pending writes in insertion order"
half is what the loop does. -/
theorem c2_triggerReservedChanges_does_not_clear :
    Fm.triggerReservedChanges
        { fmFixture with reservedChanges := [Register.of16 0x28 0] } =
      ([Register.of16 0x28 0],
        { fmFixture with reservedChanges := [Register.of16 0x28 0] }) ∧
    (Fm.triggerReservedChanges
        { fmFixture with reservedChanges := [Register.of16 0x28 0] }).2.reservedChanges ≠
      [] ∧
    (Fm.triggerReservedChanges
        (Fm.triggerReservedChanges
          { fmFixture with reservedChanges := [Register.of16 0x28 0] }).2).1 =
      [Register.of16 0x28 0] := by
  refine ⟨rfl, by decide, rfl⟩

/-! ## C3 -/

/-- C3: the claim states that with polyphony 6 and all six voices sounding,
`setPolyphony(4)` succeeds and returns two note-offs for the two oldest
voices.  The code refutes it: the shrink amount is computed as
`newPolyphony - oldPolyphony` on `std::size_t`, which wraps to
`2^64 - 2`; the consistency check `6 < 2^64 - 2` then trips and
`std::range_error("Polyphony state is broken.")` is thrown (after
`polyphony_` has already been exchanged to 4).  The surrounding code
(reclaiming assignable ids, then evicting the oldest sounding voices) is
clearly written for the amount `oldPolyphony - newPolyphony`, so the
subtraction order is a slip in the code. -/
theorem c3_setPolyphony_shrink_throws :
    noteOnSeq ⟨[], List.range 6, 6⟩
        [⟨1, 60, 100⟩, ⟨1, 61, 100⟩, ⟨1, 62, 100⟩,
          ⟨1, 63, 100⟩, ⟨1, 64, 100⟩, ⟨1, 65, 100⟩] =
      Except.ok
        ⟨[⟨0, ⟨1, 60, 100⟩⟩, ⟨1, ⟨1, 61, 100⟩⟩, ⟨2, ⟨1, 62, 100⟩⟩,
            ⟨3, ⟨1, 63, 100⟩⟩, ⟨4, ⟨1, 64, 100⟩⟩, ⟨5, ⟨1, 65, 100⟩⟩],
          [], 6⟩ ∧
    Keyboard.setPolyphony
        ⟨[⟨0, ⟨1, 60, 100⟩⟩, ⟨1, ⟨1, 61, 100⟩⟩, ⟨2, ⟨1, 62, 100⟩⟩,
            ⟨3, ⟨1, 63, 100⟩⟩, ⟨4, ⟨1, 64, 100⟩⟩, ⟨5, ⟨1, 65, 100⟩⟩],
          [], 6⟩ 4 =
      Except.error KbError.rangeError := by
  constructor
  · rfl
  · decide

/-! ## C4 -/

/-- C4: the claim states that a note-on for an already-sounding
(channel, note) first returns a note-off for the sounding voice, then a
fresh note-on.  The code refutes it: `tryNoteOn` passes the incoming
note-on note to `tryNoteOff`, whose first line rejects any note with
nonzero velocity, so the duplicate-removal step never fires (dead code,
contradicting the comment "Note off if there is any note which has the same
note number").  The second identical note-on simply receives a second voice
(id 1) and both voices sound the same note. -/
theorem c4_duplicate_note_gets_second_voice :
    Keyboard.tryNoteOn ⟨[], [0, 1], 2⟩ ⟨1, 60, 100⟩ =
      Except.ok ([⟨0, ⟨1, 60, 100⟩⟩], ⟨[⟨0, ⟨1, 60, 100⟩⟩], [1], 2⟩) ∧
    Keyboard.tryNoteOn ⟨[⟨0, ⟨1, 60, 100⟩⟩], [1], 2⟩ ⟨1, 60, 100⟩ =
      Except.ok ([⟨1, ⟨1, 60, 100⟩⟩],
        ⟨[⟨0, ⟨1, 60, 100⟩⟩, ⟨1, ⟨1, 60, 100⟩⟩], [], 2⟩) ∧
    (∀ a ∈ [NoteAssignment.mk 1 ⟨1, 60, 100⟩], a.note.isNoteOn = true) := by
  decide

/-! ## C6 -/

/-- C6: the claim states that every per-voice register write is skipped for
voice ids at or beyond the hardware channel count 6, with no lookup-table
access.  The code refutes it at id exactly 6: `reserveNoteOn`,
`reserveNoteOff` and `reservePitchChange` guard with
`kMaxChannelCount < assignId` (strict), so id 6 passes the guard and the
six-entry tables `kNoteOnChannelTable` / `kFNum1AddressTable` are indexed
out of bounds (undefined behaviour); ids 7 and above are skipped as claimed,
as are all ids ≥ 6 in the parameter-broadcast loops (whose guard is
`kMaxChannelCount <= channel`). -/
theorem c6_voice_id_six_not_skipped :
    Fm.reserveNoteOn fmFixture ⟨6, ⟨1, 60, 100⟩⟩ =
      Except.error KbError.undefinedBehaviour ∧
    Fm.reserveNoteOff fmFixture ⟨6, ⟨1, 60, 100⟩⟩ =
      Except.error KbError.undefinedBehaviour ∧
    Fm.reservePitchChangeFor trivialPitchConv fmFixture ⟨6, ⟨1, 60, 100⟩⟩ =
      Except.error KbError.undefinedBehaviour ∧
    Fm.reserveNoteOn fmFixture ⟨7, ⟨1, 60, 100⟩⟩ = Except.ok (false, fmFixture) := by
  refine ⟨by decide, by decide, by decide, ?_⟩
  decide

/-! ## C5 -/

/-- Reading `slot[i]` after writing `slot[i]` yields the written value. -/
theorem Slots.get_set_self (s : Slots) (i : Fin 4) (o : OpParams) :
    (s.set i o).get i = o := by
  fin_cases i <;> rfl

/-- Writing `slot[i]` twice keeps only the second write. -/
theorem Slots.set_set (s : Slots) (i : Fin 4) (o o' : OpParams) :
    (s.set i o).set i o' = s.set i o' := by
  fin_cases i <;> rfl

/-- Every register write emitted by a per-channel broadcast carries the
broadcast data byte. -/
theorem channelWrites_data {kb : Keyboard} {base d : Nat} {w : Register}
    (hw : w ∈ channelWrites kb base d) : w.data = d % 256 := by
  simp only [channelWrites, List.mem_filterMap] at hw
  obtain ⟨c, -, hc⟩ := hw
  by_cases h6 : kMaxChannelCount ≤ c
  · simp [h6] at hc
  · simp only [if_neg h6, Option.some.injEq] at hc
    rw [← hc]
    rfl

/-- A usable channel below the hardware limit receives its broadcast write. -/
theorem mem_channelWrites {kb : Keyboard} {c : Nat}
    (hc : c ∈ kb.usedAssignIds) (hc6 : c < kMaxChannelCount) (base d : Nat) :
    Register.of16 (addressOfChannel c base) d ∈ channelWrites kb base d := by
  simp only [channelWrites, List.mem_filterMap]
  exact ⟨c, hc, by rw [if_neg (by omega)]⟩

/-- A translator fixture with SSG-EG enabled for operator slot 2 (the state
field exists and is read by the encoders even though the checked-in sources
contain no runtime mutation path for it). -/
def ssgegFixture : Fm :=
  { fmFixture with
    tone.slot := fmFixture.tone.slot.set 2
      { fmFixture.tone.slot.get 2 with ssgegEnabled := true } }

/-- C5, counterexample: with SSG-EG enabled for slot 2 and six usable
voices, requesting attack rate 5 (differing from the stored 31) records the
value and returns true but enqueues zero register writes — the claim instead
requires one key-scale/attack-rate write per usable voice with the
attack-rate bits forced to 31 (`tryReserveParameterChange` takes the "No
need to change register." early return while SSG-EG is on). -/
theorem c5_counterexample_no_write_enqueued :
    (ssgegFixture.tryReserveAttackRate 2 5).1 = true ∧
    ((ssgegFixture.tryReserveAttackRate 2 5).2.tone.slot.get 2).ar = 5 ∧
    (ssgegFixture.tryReserveAttackRate 2 5).2.reservedChanges = [] ∧
    ssgegFixture.keyboard.usedAssignIds = [0, 1, 2, 3, 4, 5] := by
  decide

/-- C5, amended: with SSG-EG enabled for a slot, an attack-rate request that
differs from the stored value returns true, records the requested value in
the parameter state, and enqueues no register write at all; the override to
the hardware maximum appears when the shared key-scale/attack-rate register
is next encoded (here through a key-scale change) while SSG-EG is still
enabled, and once SSG-EG is disabled that register is encoded from the
originally requested attack-rate value. -/
theorem c5_ssgeg_attack_override (s : Fm) (i : Fin 4) (v k : Nat)
    (hss : (s.tone.slot.get i).ssgegEnabled = true)
    (hv : v ≠ (s.tone.slot.get i).ar)
    (hk : k ≠ (s.tone.slot.get i).ks) :
    (s.tryReserveAttackRate i v).1 = true ∧
    (s.tryReserveAttackRate i v).2.reservedChanges = s.reservedChanges ∧
    ((s.tryReserveAttackRate i v).2.tone.slot.get i).ar = v ∧
    (∀ w ∈ ((s.tryReserveAttackRate i v).2.tryReserveKeyScale i k).2.reservedChanges.drop
        s.reservedChanges.length,
      w.data = ((k <<< 6) ||| kAttackRateMaximum) % 256) ∧
    (∀ w ∈ (({ (s.tryReserveAttackRate i v).2 with
          tone.slot := (s.tryReserveAttackRate i v).2.tone.slot.set i
            { (s.tryReserveAttackRate i v).2.tone.slot.get i with
              ssgegEnabled := false } }).tryReserveKeyScale i k).2.reservedChanges.drop
        s.reservedChanges.length,
      w.data = ((k <<< 6) ||| v) % 256) := by
  have hv' : (s.tone.slot.get i).ar ≠ v := Ne.symm hv
  have har : s.tryReserveAttackRate i v =
      (true, { s with
        tone.slot := s.tone.slot.set i { s.tone.slot.get i with ar := v } }) := by
    simp [Fm.tryReserveAttackRate, hv', Slots.get_set_self, hss]
  rw [har]
  refine ⟨rfl, rfl, by rw [Slots.get_set_self], ?_, ?_⟩
  · have hk' : ({ s.tone.slot.get i with ar := v }).ks ≠ k := Ne.symm hk
    simp only [Fm.tryReserveKeyScale, Slots.get_set_self, if_neg hk',
      Slots.set_set, hss, if_true, List.drop_left]
    intro w hw
    exact channelWrites_data hw
  · have hk' : ({ { s.tone.slot.get i with ar := v } with
        ssgegEnabled := false }).ks ≠ k := Ne.symm hk
    simp only [Fm.tryReserveKeyScale, Slots.get_set_self, if_neg hk',
      Slots.set_set, Bool.false_eq_true, if_false, List.drop_left]
    intro w hw
    exact channelWrites_data hw

/-- C5, witness: the amended theorem applied to the SSG-EG fixture, slot 2,
requested attack rate 5, key scale 1. -/
theorem c5_ssgeg_attack_override_witness :
    (ssgegFixture.tryReserveAttackRate 2 5).1 = true ∧
    (ssgegFixture.tryReserveAttackRate 2 5).2.reservedChanges =
      ssgegFixture.reservedChanges ∧
    ((ssgegFixture.tryReserveAttackRate 2 5).2.tone.slot.get 2).ar = 5 ∧
    (∀ w ∈ ((ssgegFixture.tryReserveAttackRate 2 5).2.tryReserveKeyScale 2 1).2.reservedChanges.drop
        ssgegFixture.reservedChanges.length,
      w.data = ((1 <<< 6) ||| kAttackRateMaximum) % 256) ∧
    (∀ w ∈ (({ (ssgegFixture.tryReserveAttackRate 2 5).2 with
          tone.slot := (ssgegFixture.tryReserveAttackRate 2 5).2.tone.slot.set 2
            { (ssgegFixture.tryReserveAttackRate 2 5).2.tone.slot.get 2 with
              ssgegEnabled := false } }).tryReserveKeyScale 2 1).2.reservedChanges.drop
        ssgegFixture.reservedChanges.length,
      w.data = ((1 <<< 6) ||| 5) % 256) :=
  c5_ssgeg_attack_override ssgegFixture 2 5 1 (by decide) (by decide) (by decide)

/-! ## C7 -/

/-- The sink-visible address of a register write: the pin-A1 flag together
with the 8-bit address byte. -/
def regKey (r : Register) : Bool × Nat :=
  (r.pinA1, r.address)

/-- Data byte of the last pending write at a given (pin, address) key. -/
def lastDataAt (l : List Register) (key : Bool × Nat) : Option Nat :=
  ((l.filter fun r => regKey r == key).getLast?).map (·.data)

/-- The last element of a concrete list, when it exists, is a member. -/
theorem mem_of_getLast?_eq_some {α : Type} {l : List α} {a : α}
    (h : l.getLast? = some a) : a ∈ l := by
  obtain ⟨hne, rfl⟩ := List.mem_getLast?_eq_getLast h
  exact List.getLast_mem hne

/-- Appending a batch that contains a write at the key and whose writes all
carry the same data byte makes that byte the last pending data at the key,
whatever was pending before. -/
theorem lastDataAt_append {l₂ : List Register} (l₁ : List Register)
    {key : Bool × Nat} {d : Nat}
    (hmem : ∃ w ∈ l₂, regKey w = key)
    (hall : ∀ w ∈ l₂, w.data = d) :
    lastDataAt (l₁ ++ l₂) key = some d := by
  unfold lastDataAt
  rw [List.filter_append, List.getLast?_append]
  obtain ⟨w₀, hw₀, hkey⟩ := hmem
  have h2 : w₀ ∈ l₂.filter (fun r => regKey r == key) :=
    List.mem_filter.mpr ⟨hw₀, by simp [hkey]⟩
  have hfne : l₂.filter (fun r => regKey r == key) ≠ [] :=
    List.ne_nil_of_mem h2
  obtain ⟨w, hw⟩ : ∃ w, (l₂.filter (fun r => regKey r == key)).getLast? = some w := by
    cases hgl : (l₂.filter (fun r => regKey r == key)).getLast? with
    | none => exact absurd (List.getLast?_eq_none_iff.mp hgl) hfne
    | some w => exact ⟨w, rfl⟩
  rw [hw]
  have hwmem : w ∈ l₂ :=
    List.mem_of_mem_filter (mem_of_getLast?_eq_some hw)
  simp [hall w hwmem]

/-- A per-channel broadcast batch dominates the pending list at the target
channel's (pin, address) key. -/
theorem lastDataAt_append_channelWrites (l₁ : List Register) {kb : Keyboard}
    {c : Nat} (hc : c ∈ kb.usedAssignIds) (hc6 : c < kMaxChannelCount)
    (base d : Nat) :
    lastDataAt (l₁ ++ channelWrites kb base d)
      (regKey (Register.of16 (addressOfChannel c base) 0)) = some (d % 256) := by
  refine lastDataAt_append l₁
    ⟨Register.of16 (addressOfChannel c base) d,
      mem_channelWrites hc hc6 base d, rfl⟩
    fun w hw => channelWrites_data hw

/-- C7: for in-range feedback f and algorithm a, reserving the two changes in
either order leaves, for any usable voice id c below the hardware limit, the
last pending write at that voice's 0xB0-region address with data byte
`(f <<< 3) ||| a` — the repacked byte is order-independent.  (At least one of
the two values must differ from the stored state, otherwise the two no-op
calls enqueue nothing at all.) -/
theorem c7_feedback_algorithm_repack (s : Fm) (f a c : Nat)
    (hf : f ≤ 7) (ha : a ≤ 7)
    (hne : ¬(f = s.tone.fb ∧ a = s.tone.al))
    (hc : c ∈ s.keyboard.usedAssignIds) (hc6 : c < kMaxChannelCount) :
    lastDataAt ((s.tryReserveFeedback f).2.tryReserveAlgorithm a).2.reservedChanges
        (regKey (Register.of16 (addressOfChannel c 0xb0) 0)) =
      some ((f <<< 3) ||| a) ∧
    lastDataAt ((s.tryReserveAlgorithm a).2.tryReserveFeedback f).2.reservedChanges
        (regKey (Register.of16 (addressOfChannel c 0xb0) 0)) =
      some ((f <<< 3) ||| a) := by
  have hlt : (f <<< 3) ||| a < 256 := by
    have h8 : f <<< 3 = f * 8 := Nat.shiftLeft_eq f 3
    have : f <<< 3 < 2 ^ 8 := by omega
    exact Nat.or_lt_two_pow this (by omega)
  have hmod : (f <<< 3) ||| a = ((f <<< 3) ||| a) % 256 :=
    (Nat.mod_eq_of_lt hlt).symm
  rw [hmod]
  by_cases hfb : f = s.tone.fb <;> by_cases hal : a = s.tone.al
  · exact absurd ⟨hfb, hal⟩ hne
  · -- feedback unchanged, algorithm changes
    have hfb' : s.tone.fb = f := hfb.symm
    have hal' : s.tone.al ≠ a := fun h => hal h.symm
    have e1 : (s.tryReserveFeedback f).2 = { s with tone.fb := f } := by
      simp [Fm.tryReserveFeedback, hfb']
    have e1' : (s.tryReserveAlgorithm a).2.reservedChanges =
        s.reservedChanges ++
          channelWrites s.keyboard 0xb0 ((s.tone.fb <<< 3) ||| a) := by
      simp [Fm.tryReserveAlgorithm, hal']
    have e2 : (({ s with tone.fb := f } : Fm).tryReserveAlgorithm a).2.reservedChanges =
        s.reservedChanges ++ channelWrites s.keyboard 0xb0 ((f <<< 3) ||| a) := by
      simp [Fm.tryReserveAlgorithm, hal']
    have e2' : ((s.tryReserveAlgorithm a).2.tryReserveFeedback f).2.reservedChanges =
        (s.tryReserveAlgorithm a).2.reservedChanges := by
      have hfb2 : (s.tryReserveAlgorithm a).2.tone.fb = f := by
        simp [Fm.tryReserveAlgorithm, hal', hfb']
      simp [Fm.tryReserveFeedback, hfb2]
    rw [e1, e2, e2', e1', hfb']
    exact ⟨lastDataAt_append_channelWrites _ hc hc6 0xb0 _,
      lastDataAt_append_channelWrites _ hc hc6 0xb0 _⟩
  · -- feedback changes, algorithm unchanged
    have hfb' : s.tone.fb ≠ f := fun h => hfb h.symm
    have hal' : s.tone.al = a := hal.symm
    have e1 : (s.tryReserveFeedback f).2 =
        { s with
          tone.fb := f
          reservedChanges :=
            s.reservedChanges ++
              channelWrites s.keyboard 0xb0 ((f <<< 3) ||| s.tone.al) } := by
      simp [Fm.tryReserveFeedback, hfb']
    have e2 : (({ s with
          tone.fb := f
          reservedChanges :=
            s.reservedChanges ++
              channelWrites s.keyboard 0xb0 ((f <<< 3) ||| s.tone.al) } : Fm).tryReserveAlgorithm
          a).2.reservedChanges =
        s.reservedChanges ++
          channelWrites s.keyboard 0xb0 ((f <<< 3) ||| s.tone.al) := by
      simp [Fm.tryReserveAlgorithm, hal']
    have e3 : (s.tryReserveAlgorithm a).2 = { s with tone.al := a } := by
      simp [Fm.tryReserveAlgorithm, hal']
    have e4 : (({ s with tone.al := a } : Fm).tryReserveFeedback f).2.reservedChanges =
        s.reservedChanges ++ channelWrites s.keyboard 0xb0 ((f <<< 3) ||| a) := by
      simp [Fm.tryReserveFeedback, hfb']
    rw [e1, e2, e3, e4, hal']
    exact ⟨lastDataAt_append_channelWrites _ hc hc6 0xb0 _,
      lastDataAt_append_channelWrites _ hc hc6 0xb0 _⟩
  · -- both change
    have hfb' : s.tone.fb ≠ f := fun h => hfb h.symm
    have hal' : s.tone.al ≠ a := fun h => hal h.symm
    have e1 : (s.tryReserveFeedback f).2 =
        { s with
          tone.fb := f
          reservedChanges :=
            s.reservedChanges ++
              channelWrites s.keyboard 0xb0 ((f <<< 3) ||| s.tone.al) } := by
      simp [Fm.tryReserveFeedback, hfb']
    have e2 : (({ s with
          tone.fb := f
          reservedChanges :=
            s.reservedChanges ++
              channelWrites s.keyboard 0xb0 ((f <<< 3) ||| s.tone.al) } : Fm).tryReserveAlgorithm
          a).2.reservedChanges =
        (s.reservedChanges ++
            channelWrites s.keyboard 0xb0 ((f <<< 3) ||| s.tone.al)) ++
          channelWrites s.keyboard 0xb0 ((f <<< 3) ||| a) := by
      simp [Fm.tryReserveAlgorithm, hal']
    have e3 : (s.tryReserveAlgorithm a).2 =
        { s with
          tone.al := a
          reservedChanges :=
            s.reservedChanges ++
              channelWrites s.keyboard 0xb0 ((s.tone.fb <<< 3) ||| a) } := by
      simp [Fm.tryReserveAlgorithm, hal']
    have e4 : (({ s with
          tone.al := a
          reservedChanges :=
            s.reservedChanges ++
              channelWrites s.keyboard 0xb0 ((s.tone.fb <<< 3) ||| a) } : Fm).tryReserveFeedback
          f).2.reservedChanges =
        (s.reservedChanges ++
            channelWrites s.keyboard 0xb0 ((s.tone.fb <<< 3) ||| a)) ++
          channelWrites s.keyboard 0xb0 ((f <<< 3) ||| a) := by
      simp [Fm.tryReserveFeedback, hfb']
    rw [e1, e2, e3, e4]
    exact ⟨lastDataAt_append_channelWrites _ hc hc6 0xb0 _,
      lastDataAt_append_channelWrites _ hc hc6 0xb0 _⟩

/-- C7, witness: the repack theorem applied to the default fixture with
feedback 1, algorithm 2, channel 0: both orders leave data byte
`(1 <<< 3) ||| 2 = 10` as the last 0xB0 write for channel 0. -/
theorem c7_feedback_algorithm_repack_witness :
    lastDataAt ((fmFixture.tryReserveFeedback 1).2.tryReserveAlgorithm 2).2.reservedChanges
        (regKey (Register.of16 (addressOfChannel 0 0xb0) 0)) =
      some ((1 <<< 3) ||| 2) ∧
    lastDataAt ((fmFixture.tryReserveAlgorithm 2).2.tryReserveFeedback 1).2.reservedChanges
        (regKey (Register.of16 (addressOfChannel 0 0xb0) 0)) =
      some ((1 <<< 3) ||| 2) :=
  c7_feedback_algorithm_repack fmFixture 1 2 0 (by decide) (by decide)
    (by decide) (by decide) (by decide)

/-! ## C8 -/

/-- One pitch reservation for an assignment below the hardware limit
succeeds and appends exactly the two pitch-register writes. -/
theorem reservePitchChangeFor_ok (conv : Fm.PitchConv) (s : Fm)
    (a : NoteAssignment) (ha : a.assignId < kMaxChannelCount) :
    ∃ w₁ w₂, Fm.reservePitchChangeFor conv s a =
      Except.ok (true, { s with reservedChanges := s.reservedChanges ++ [w₁, w₂] }) := by
  have h6 : ¬ kMaxChannelCount < a.assignId := by
    have h : a.assignId < 6 := ha
    simp only [kMaxChannelCount]
    omega
  have hlen : a.assignId < kFNum1AddressTable.length := ha
  refine ⟨Register.of16 (kFNum1AddressTable.get ⟨a.assignId, hlen⟩ + 4)
      ((conv.fnumOfCent
          (Fm.calculateCent a.note.noteNumber s.pitchBend s.pitchBendSensitivity) %
            65536) >>>
          8),
    Register.of16 (kFNum1AddressTable.get ⟨a.assignId, hlen⟩)
      ((conv.fnumOfCent
          (Fm.calculateCent a.note.noteNumber s.pitchBend s.pitchBendSensitivity) %
            65536) &&&
          0xff), ?_⟩
  unfold Fm.reservePitchChangeFor
  rw [if_neg h6, List.getElem?_eq_getElem hlen]
  rfl

/-- The pitch-rebroadcast loop succeeds with result `b` and only appends
register writes when every listed assignment is below the hardware limit. -/
theorem reservePitchList_ok (conv : Fm.PitchConv) (as : List NoteAssignment) :
    ∀ (b : Bool) (s : Fm), (∀ a ∈ as, a.assignId < kMaxChannelCount) →
      ∃ ws, Fm.reservePitchList conv as b s =
        Except.ok (b, { s with reservedChanges := s.reservedChanges ++ ws }) := by
  induction as with
  | nil =>
    intro b s _
    exact ⟨[], by simp [Fm.reservePitchList]⟩
  | cons a rest ih =>
    intro b s h
    obtain ⟨w₁, w₂, he⟩ :=
      reservePitchChangeFor_ok conv s a (h a (List.mem_cons_self a rest))
    obtain ⟨ws, hws⟩ :=
      ih b { s with reservedChanges := s.reservedChanges ++ [w₁, w₂] }
        (fun x hx => h x (List.mem_cons_of_mem a hx))
    refine ⟨[w₁, w₂] ++ ws, ?_⟩
    simp only [Fm.reservePitchList, he, Bool.and_true, hws, List.append_assoc]

/-- C8: for every parameter kind, a request carrying an in-range value that
differs from the stored one returns true; immediately repeating the call with
the identical value returns false, enqueues no register write and leaves the
whole translator state unchanged.  (The hypothesis that all sounding ids are
below the hardware channel count holds in every state the translator can
reach, since its keyboard is constructed with polyphony 6 and never
resized.) -/
theorem c8_register_diff_idempotence (conv : Fm.PitchConv) (s : Fm)
    (c : ParameterChange) (_hr : c.inRange = true)
    (hd : c.differsFrom s = true)
    (hids : ∀ a ∈ s.keyboard.noteOnQueue, a.assignId < kMaxChannelCount) :
    ∃ s₁, s.tryReserveParameterChange conv c = Except.ok (true, s₁) ∧
      s₁.tryReserveParameterChange conv c = Except.ok (false, s₁) := by
  cases c with
  | pitchBendSensitivity v =>
    simp only [ParameterChange.differsFrom, ne_eq, decide_eq_true_eq] at hd
    have hne : s.pitchBendSensitivity ≠ v := Ne.symm hd
    obtain ⟨ws, hws⟩ := reservePitchList_ok conv s.keyboard.noteOnQueue true
      { s with pitchBendSensitivity := v } hids
    refine ⟨{ s with
        pitchBendSensitivity := v
        reservedChanges := s.reservedChanges ++ ws }, ?_, ?_⟩
    · simp only [Fm.tryReserveParameterChange, Fm.tryReservePitchBendSensitivity,
        if_neg hne, Fm.reservePitchChangeAll]
      exact hws
    · simp [Fm.tryReserveParameterChange, Fm.tryReservePitchBendSensitivity]
  | algorithm v =>
    simp only [ParameterChange.differsFrom, ne_eq, decide_eq_true_eq] at hd
    have hne : s.tone.al ≠ v := Ne.symm hd
    refine ⟨(s.tryReserveAlgorithm v).2, ?_, ?_⟩
    · simp [Fm.tryReserveParameterChange, Fm.tryReserveAlgorithm, if_neg hne]
    · simp [Fm.tryReserveParameterChange, Fm.tryReserveAlgorithm, if_neg hne]
  | feedback v =>
    simp only [ParameterChange.differsFrom, ne_eq, decide_eq_true_eq] at hd
    have hne : s.tone.fb ≠ v := Ne.symm hd
    refine ⟨(s.tryReserveFeedback v).2, ?_, ?_⟩
    · simp [Fm.tryReserveParameterChange, Fm.tryReserveFeedback, if_neg hne]
    · simp [Fm.tryReserveParameterChange, Fm.tryReserveFeedback, if_neg hne]
  | operatorEnabled i v =>
    simp only [ParameterChange.differsFrom, ne_eq, decide_eq_true_eq] at hd
    have hne : (s.tone.slot.get i).isEnabled ≠ v := Ne.symm hd
    refine ⟨(s.tryReserveOperatorEnabled i v).2, ?_, ?_⟩
    · simp [Fm.tryReserveParameterChange, Fm.tryReserveOperatorEnabled,
        Slots.get_set_self, if_neg hne]
    · simp [Fm.tryReserveParameterChange, Fm.tryReserveOperatorEnabled,
        Slots.get_set_self, Slots.set_set, if_neg hne]
  | attackRate i v =>
    simp only [ParameterChange.differsFrom, ne_eq, decide_eq_true_eq] at hd
    have hne : (s.tone.slot.get i).ar ≠ v := Ne.symm hd
    by_cases hss : (s.tone.slot.get i).ssgegEnabled
    · refine ⟨(s.tryReserveAttackRate i v).2, ?_, ?_⟩
      · simp [Fm.tryReserveParameterChange, Fm.tryReserveAttackRate,
          Slots.get_set_self, if_neg hne, hss]
      · simp [Fm.tryReserveParameterChange, Fm.tryReserveAttackRate,
          Slots.get_set_self, Slots.set_set, if_neg hne, hss]
    · refine ⟨(s.tryReserveAttackRate i v).2, ?_, ?_⟩
      · simp [Fm.tryReserveParameterChange, Fm.tryReserveAttackRate,
          Slots.get_set_self, if_neg hne, hss]
      · simp [Fm.tryReserveParameterChange, Fm.tryReserveAttackRate,
          Slots.get_set_self, Slots.set_set, if_neg hne, hss]
  | decayRate i v =>
    simp only [ParameterChange.differsFrom, ne_eq, decide_eq_true_eq] at hd
    have hne : (s.tone.slot.get i).dr ≠ v := Ne.symm hd
    refine ⟨(s.tryReserveDecayRate i v).2, ?_, ?_⟩
    · simp [Fm.tryReserveParameterChange, Fm.tryReserveDecayRate,
        Slots.get_set_self, if_neg hne]
    · simp [Fm.tryReserveParameterChange, Fm.tryReserveDecayRate,
        Slots.get_set_self, Slots.set_set, if_neg hne]
  | sustainRate i v =>
    simp only [ParameterChange.differsFrom, ne_eq, decide_eq_true_eq] at hd
    have hne : (s.tone.slot.get i).sr ≠ v := Ne.symm hd
    refine ⟨(s.tryReserveSustainRate i v).2, ?_, ?_⟩
    · simp [Fm.tryReserveParameterChange, Fm.tryReserveSustainRate,
        Slots.get_set_self, if_neg hne]
    · simp [Fm.tryReserveParameterChange, Fm.tryReserveSustainRate,
        Slots.get_set_self, Slots.set_set, if_neg hne]
  | releaseRate i v =>
    simp only [ParameterChange.differsFrom, ne_eq, decide_eq_true_eq] at hd
    have hne : (s.tone.slot.get i).rr ≠ v := Ne.symm hd
    refine ⟨(s.tryReserveReleaseRate i v).2, ?_, ?_⟩
    · simp [Fm.tryReserveParameterChange, Fm.tryReserveReleaseRate,
        Slots.get_set_self, if_neg hne]
    · simp [Fm.tryReserveParameterChange, Fm.tryReserveReleaseRate,
        Slots.get_set_self, Slots.set_set, if_neg hne]
  | sustainLevel i v =>
    simp only [ParameterChange.differsFrom, ne_eq, decide_eq_true_eq] at hd
    have hne : (s.tone.slot.get i).sl ≠ v := Ne.symm hd
    refine ⟨(s.tryReserveSustainLevel i v).2, ?_, ?_⟩
    · simp [Fm.tryReserveParameterChange, Fm.tryReserveSustainLevel,
        Slots.get_set_self, if_neg hne]
    · simp [Fm.tryReserveParameterChange, Fm.tryReserveSustainLevel,
        Slots.get_set_self, Slots.set_set, if_neg hne]
  | totalLevel i v =>
    simp only [ParameterChange.differsFrom, ne_eq, decide_eq_true_eq] at hd
    have hne : (s.tone.slot.get i).tl ≠ v := Ne.symm hd
    refine ⟨(s.tryReserveTotalLevel i v).2, ?_, ?_⟩
    · simp [Fm.tryReserveParameterChange, Fm.tryReserveTotalLevel,
        Slots.get_set_self, if_neg hne]
    · simp [Fm.tryReserveParameterChange, Fm.tryReserveTotalLevel,
        Slots.get_set_self, Slots.set_set, if_neg hne]
  | keyScale i v =>
    simp only [ParameterChange.differsFrom, ne_eq, decide_eq_true_eq] at hd
    have hne : (s.tone.slot.get i).ks ≠ v := Ne.symm hd
    refine ⟨(s.tryReserveKeyScale i v).2, ?_, ?_⟩
    · simp [Fm.tryReserveParameterChange, Fm.tryReserveKeyScale,
        Slots.get_set_self, if_neg hne]
    · simp [Fm.tryReserveParameterChange, Fm.tryReserveKeyScale,
        Slots.get_set_self, Slots.set_set, if_neg hne]
  | multiple i v =>
    simp only [ParameterChange.differsFrom, ne_eq, decide_eq_true_eq] at hd
    have hne : (s.tone.slot.get i).ml ≠ v := Ne.symm hd
    refine ⟨(s.tryReserveMultiple i v).2, ?_, ?_⟩
    · simp [Fm.tryReserveParameterChange, Fm.tryReserveMultiple,
        Slots.get_set_self, if_neg hne]
    · simp [Fm.tryReserveParameterChange, Fm.tryReserveMultiple,
        Slots.get_set_self, Slots.set_set, if_neg hne]
  | detune i v =>
    simp only [ParameterChange.differsFrom, ne_eq, decide_eq_true_eq] at hd
    have hne : (s.tone.slot.get i).dt ≠ v := Ne.symm hd
    refine ⟨(s.tryReserveDetune i v).2, ?_, ?_⟩
    · simp [Fm.tryReserveParameterChange, Fm.tryReserveDetune,
        Slots.get_set_self, if_neg hne]
    · simp [Fm.tryReserveParameterChange, Fm.tryReserveDetune,
        Slots.get_set_self, Slots.set_set, if_neg hne]

/-- C8, witness: the diff-idempotence theorem applied to the default fixture
(one sounding voice on id 0) and a feedback request of 1 (stored value 0). -/
theorem c8_register_diff_idempotence_witness :
    ∃ s₁,
      Fm.tryReserveParameterChange trivialPitchConv
          { fmFixture with keyboard := ⟨[⟨0, ⟨1, 60, 100⟩⟩], [1, 2, 3, 4, 5], 6⟩ }
          (ParameterChange.feedback 1) =
        Except.ok (true, s₁) ∧
      s₁.tryReserveParameterChange trivialPitchConv (ParameterChange.feedback 1) =
        Except.ok (false, s₁) :=
  c8_register_diff_idempotence trivialPitchConv
    { fmFixture with keyboard := ⟨[⟨0, ⟨1, 60, 100⟩⟩], [1, 2, 3, 4, 5], 6⟩ }
    (ParameterChange.feedback 1) (by decide) (by decide) (by decide)

/-! ## C9 -/

/-- A note-on while an id is still assignable: no steal, the front
assignable id is taken and the note is appended to the note-on queue. -/
theorem tryNoteOn_free (kb : Keyboard) (n : Note) (hn : n.isNoteOn = true)
    (j : Nat) (rest : List Nat) (hq : kb.assignableIdQueue = j :: rest) :
    kb.tryNoteOn n =
      Except.ok ([⟨j, n⟩],
        { kb with
          assignableIdQueue := rest
          noteOnQueue := kb.noteOnQueue ++ [⟨j, n⟩] }) := by
  simp [Keyboard.tryNoteOn, Keyboard.tryNoteOff, Keyboard.assignNewNote, hn, hq]

/-- A note-on with no assignable id left: the oldest sounding voice is
stolen, its note-off is returned first, and its id is immediately handed to
the new note. -/
theorem tryNoteOn_steal (kb : Keyboard) (n : Note) (hn : n.isNoteOn = true)
    (hempty : kb.assignableIdQueue = [])
    (oldest : NoteAssignment) (restQ : List NoteAssignment)
    (hq : kb.noteOnQueue = oldest :: restQ) :
    kb.tryNoteOn n =
      Except.ok
        ([⟨oldest.assignId,
            Note.noteOff oldest.note.channel oldest.note.noteNumber⟩,
          ⟨oldest.assignId, n⟩],
        ⟨restQ ++ [⟨oldest.assignId, n⟩], [], kb.polyphony⟩) := by
  simp [Keyboard.tryNoteOn, Keyboard.tryNoteOff, Keyboard.assignNewNote,
    hn, hempty, hq]

/-- Filling a keyboard whose assignable queue is the ascending range
`[j, N)` with note-ons hands out ids `j, j+1, …` in order. -/
theorem noteOnSeq_fill (N : Nat) (ns : List Note) :
    ∀ (j : Nat) (q : List NoteAssignment), j + ns.length ≤ N →
      (∀ n ∈ ns, n.velocity ≠ 0) →
      noteOnSeq ⟨q, List.range' j (N - j), N⟩ ns =
        Except.ok
          ⟨q ++ List.zipWith (fun i n => ⟨i, n⟩) (List.range' j ns.length) ns,
            List.range' (j + ns.length) (N - (j + ns.length)), N⟩ := by
  induction ns with
  | nil =>
    intro j q _ _
    simp [noteOnSeq]
  | cons n rest ih =>
    intro j q h hv
    have h' : j + (rest.length + 1) ≤ N := by simpa using h
    have hNj : N - j = (N - (j + 1)) + 1 := by omega
    have hq : (⟨q, List.range' j (N - j), N⟩ : Keyboard).assignableIdQueue =
        j :: List.range' (j + 1) (N - (j + 1)) := by
      simp [hNj, List.range'_succ]
    have hn : n.isNoteOn = true := by
      simp [Note.isNoteOn, hv n (List.mem_cons_self n rest)]
    rw [noteOnSeq, tryNoteOn_free _ n hn j _ hq]
    dsimp only
    have hrec := ih (j + 1) (q ++ [⟨j, n⟩]) (by omega)
      (fun x hx => hv x (List.mem_cons_of_mem n hx))
    rw [hrec]
    have harith : j + 1 + rest.length = j + (rest.length + 1) := by omega
    simp only [List.length_cons, List.range'_succ, harith]
    simp [List.append_assoc]

/-- C9: with polyphony `N = rest.length + 1` and `N + 1` sequential note-ons
of pairwise distinct notes from a fresh keyboard, the first `N` note-ons
fill ids `0, …, N-1` in order; the `(N+1)`-th note-on steals exactly the
oldest voice (the first note, on id 0): it returns that voice's note-off
followed by the note-on of the new note, the stolen id 0 is the id assigned
to the new note, and the remaining voices are untouched. -/
theorem c9_fifo_steal_oldest (n₁ : Note) (rest : List Note) (m : Note)
    (hv₁ : n₁.velocity ≠ 0) (hvr : ∀ x ∈ rest, x.velocity ≠ 0)
    (hm : m.velocity ≠ 0)
    (_hdistinct : (n₁ :: (rest ++ [m])).Pairwise
      (fun x y => x.channel ≠ y.channel ∨ x.noteNumber ≠ y.noteNumber)) :
    ∃ kb : Keyboard,
      Keyboard.create (rest.length + 1) =
        Except.ok ⟨[], List.range (rest.length + 1), rest.length + 1⟩ ∧
      noteOnSeq ⟨[], List.range (rest.length + 1), rest.length + 1⟩
          (n₁ :: rest) = Except.ok kb ∧
      kb.noteOnQueue.head? = some ⟨0, n₁⟩ ∧
      kb.assignableIdQueue = [] ∧
      kb.tryNoteOn m =
        Except.ok ([⟨0, Note.noteOff n₁.channel n₁.noteNumber⟩, ⟨0, m⟩],
          ⟨kb.noteOnQueue.tail ++ [⟨0, m⟩], [], rest.length + 1⟩) := by
  have hv : ∀ x ∈ n₁ :: rest, x.velocity ≠ 0 := by
    intro x hx
    rcases List.mem_cons.mp hx with h | h
    · exact h ▸ hv₁
    · exact hvr x h
  have hfill := noteOnSeq_fill (rest.length + 1) (n₁ :: rest) 0 []
    (by simp) hv
  have hstate : (⟨[], List.range (rest.length + 1), rest.length + 1⟩ : Keyboard) =
      ⟨[], List.range' 0 (rest.length + 1 - 0), rest.length + 1⟩ := by
    simp [List.range_eq_range']
  refine ⟨_, by simp [Keyboard.create], by rw [hstate]; exact hfill, ?_, ?_, ?_⟩
  · simp [List.range'_succ]
  · simp
  · have hmOn : m.isNoteOn = true := by simp [Note.isNoteOn, hm]
    rw [tryNoteOn_steal _ m hmOn (by simp)
      (⟨0, n₁⟩ : NoteAssignment)
      (List.zipWith (fun i n => ⟨i, n⟩) (List.range' 1 rest.length) rest)
      (by simp [List.range'_succ])]
    simp [List.range'_succ]

/-- C9, witness: polyphony 2, notes (1,60), (1,61) then (1,62): the third
note-on returns the note-off of (1,60) on id 0 followed by the note-on of
(1,62) on the same id 0. -/
theorem c9_fifo_steal_oldest_witness :
    ∃ kb : Keyboard,
      Keyboard.create 2 = Except.ok ⟨[], List.range 2, 2⟩ ∧
      noteOnSeq ⟨[], List.range 2, 2⟩ [⟨1, 60, 100⟩, ⟨1, 61, 100⟩] =
        Except.ok kb ∧
      kb.noteOnQueue.head? = some ⟨0, ⟨1, 60, 100⟩⟩ ∧
      kb.assignableIdQueue = [] ∧
      kb.tryNoteOn ⟨1, 62, 100⟩ =
        Except.ok ([⟨0, Note.noteOff 1 60⟩, ⟨0, ⟨1, 62, 100⟩⟩],
          ⟨kb.noteOnQueue.tail ++ [⟨0, ⟨1, 62, 100⟩⟩], [], 2⟩) :=
  c9_fifo_steal_oldest ⟨1, 60, 100⟩ [⟨1, 61, 100⟩] ⟨1, 62, 100⟩
    (by decide) (by decide) (by decide) (by decide)

/-! ## C10 -/

namespace ParameterChangeQueue

/-- Erasing the pending entry of a kind leaves no entry of that kind, when
kinds were pairwise distinct. -/
theorem kindIndex_not_mem_eraseP (p : ParameterChange) :
    ∀ (st : State), ((st.map kindIndex).Nodup) →
      kindIndex p ∉
        (st.eraseP (fun q => kindIndex q == kindIndex p)).map kindIndex := by
  intro st
  induction st with
  | nil => simp
  | cons q t ih =>
    intro h
    rw [List.map_cons, List.nodup_cons] at h
    by_cases hk : kindIndex q = kindIndex p
    · rw [show List.eraseP (fun q => kindIndex q == kindIndex p) (q :: t) = t by
        simp [List.eraseP_cons, hk]]
      exact hk ▸ h.1
    · rw [show List.eraseP (fun q => kindIndex q == kindIndex p) (q :: t) =
          q :: List.eraseP (fun q => kindIndex q == kindIndex p) t by
        simp [List.eraseP_cons, hk]]
      rw [List.map_cons, List.mem_cons]
      rintro (hc | hc)
      · exact hk hc.symm
      · exact ih h.2 hc

/-- Enqueueing preserves pairwise-distinct kinds. -/
theorem kinds_nodup_enqueue (st : State) (p : ParameterChange)
    (h : (st.map kindIndex).Nodup) :
    ((enqueue st p).map kindIndex).Nodup := by
  rw [enqueue, List.map_cons, List.nodup_cons]
  refine ⟨kindIndex_not_mem_eraseP p st h, ?_⟩
  exact h.sublist (List.Sublist.map kindIndex (List.eraseP_sublist st))

/-- Every queue operation preserves pairwise-distinct kinds. -/
theorem kinds_nodup_step (st : State) (op : Op)
    (h : (st.map kindIndex).Nodup) :
    ((step st op).map kindIndex).Nodup := by
  cases op with
  | enq p => exact kinds_nodup_enqueue st p h
  | deq =>
    cases hgl : st.getLast? with
    | none => simpa [step, dequeue, hgl] using h
    | some p =>
      have : (st.dropLast.map kindIndex).Nodup :=
        h.sublist (List.Sublist.map kindIndex (List.dropLast_sublist st))
      simpa [step, dequeue, hgl] using this
  | clr => simp [step, clear]

/-- Every state reached from the empty queue has pairwise-distinct kinds. -/
theorem kinds_nodup_run (ops : List Op) :
    ((run ops).map kindIndex).Nodup := by
  suffices hgen : ∀ (st : State), (st.map kindIndex).Nodup →
      ((ops.foldl step st).map kindIndex).Nodup from hgen [] (by simp)
  induction ops with
  | nil => intro st h; exact h
  | cons op rest ih =>
    intro st h
    exact ih (step st op) (kinds_nodup_step st op h)

/-- Draining by repeated back-removal returns the queue entries back first,
i.e. reversed. -/
theorem drainFuel_eq_reverse :
    ∀ (fuel : Nat) (st : State), st.length ≤ fuel →
      drainFuel fuel st = st.reverse := by
  intro fuel
  induction fuel with
  | zero =>
    intro st h
    rw [List.length_eq_zero.mp (Nat.le_zero.mp h)]
    rfl
  | succ n ih =>
    intro st h
    rcases List.eq_nil_or_concat st with rfl | ⟨ys, x, rfl⟩
    · rfl
    · rw [List.concat_eq_append] at h ⊢
      have hys : ys.length ≤ n := by
        simpa using Nat.le_of_succ_le_succ (by simpa using h)
      simp [drainFuel, dequeue, List.getLast?_concat, List.dropLast_concat,
        ih ys hys]

/-- Distinct kinds bound the per-kind multiplicity by one. -/
theorem countP_kind_le_one (st : State) (h : (st.map kindIndex).Nodup)
    (k : Nat) : st.countP (fun p => kindIndex p == k) ≤ 1 := by
  have hcount := List.nodup_iff_count_le_one.mp h k
  rw [List.count, List.countP_map] at hcount
  exact hcount

/-- C10: after every sequence of enqueue/dequeue/clear operations from the
empty queue, (a) the pending kinds are pairwise distinct, so the queue holds
at most one pending element per parameter kind; (b) enqueueing a kind that
is already pending erases the old entry and places the new value at the
front; (c) fully draining the queue returns the entries in reverse of their
position, i.e. each `dequeue` yields the entry whose kind was least recently
(re-)enqueued, and — with (a) and (b) — draining yields exactly one value,
the latest, per distinct pending kind. -/
theorem c10_unique_kind_change_queue (ops : List Op) :
    ((run ops).map kindIndex).Nodup ∧
    (∀ k, (run ops).countP (fun p => kindIndex p == k) ≤ 1) ∧
    (∀ p, run (ops ++ [Op.enq p]) =
      p :: (run ops).eraseP (fun q => kindIndex q == kindIndex p)) ∧
    drain (run ops) = (run ops).reverse := by
  refine ⟨kinds_nodup_run ops, fun k => countP_kind_le_one _ (kinds_nodup_run ops) k,
    fun p => ?_, drainFuel_eq_reverse _ _ (Nat.le_refl _)⟩
  rw [run, List.foldl_append]
  rfl

end ParameterChangeQueue

end Audio
